import Mathlib

/-!
# TermCanvas — verification of the rendering core

Shallow embedding of the TermCanvas terminal rendering engine
(`src/termcanvas.h`, `src/screen.h`) and proofs about its rendering,
quantization and drawing primitives.

Conventions of the embedding:
* C `int` is modelled as `Int`; array contents as `List`s.
* The float computations in the quantizer are modelled exactly: the values
  compared (`255.0f/24.0f`, small integer differences, `(float)c/255*5`)
  are either exactly representable or far enough from decision boundaries
  that `float` rounding cannot change any comparison, so the embedding uses
  exact rational arithmetic.
* Output produced through the staging buffer is modelled as a list of
  tokens, one token per `swprintf`/character write of the source, plus a
  character-level rendering of each token for buffer-capacity accounting.
-/

namespace TermCanvasModel

/-- Modelled from the spec: `color.h` is not under `src/`.  The spec (§3)
defines `Color` as "an opaque 24-bit RGB value plus a distinguished sentinel
`None` meaning do not override an existing value"; equality is structural
(the C code compares the raw `.color` field, which separates the sentinel
from every concrete RGB value). -/
inductive Color where
  | none
  | rgb (r g b : Nat)
deriving DecidableEq

/-- Modelled from the spec: channel accessor of `color.h`.  On the sentinel
(which the renderer only ever feeds to the encoder through the initial
"last emitted" state) the channel value is taken to be 0. -/
def get_red : Color → Nat
  | .none => 0
  | .rgb r _ _ => r

/-- Modelled from the spec: channel accessor of `color.h`. -/
def get_green : Color → Nat
  | .none => 0
  | .rgb _ g _ => g

/-- Modelled from the spec: channel accessor of `color.h`. -/
def get_blue : Color → Nat
  | .none => 0
  | .rgb _ _ b => b

/-- Modelled from the spec: `is_none` of `color.h` tests the sentinel. -/
def is_none : Color → Bool
  | .none => true
  | .rgb _ _ _ => false

/-- Modelled from the spec: the `COLOR_NONE` sentinel of `color.h`. -/
def COLOR_NONE : Color := Color.none

/-- Modelled from the spec: standard black. -/
def COLOR_BLACK : Color := Color.rgb 0 0 0

/-- Modelled from the spec: standard white. -/
def COLOR_WHITE : Color := Color.rgb 255 255 255

/-- Modelled from the spec: standard red. -/
def COLOR_RED : Color := Color.rgb 255 0 0

/-- `enum TcEffect` (termcanvas.h). -/
inductive TcEffect where
  | Effect_None
  | Effect_Bold
  | Effect_Italic
  | Effect_Underline
  | Effect_Blink
  | Effect_Reverse
  | Effect_Conceal
deriving DecidableEq

/-- The numeric SGR code of each effect (the C enum values). -/
def effectCode : TcEffect → Nat
  | .Effect_None => 0
  | .Effect_Bold => 1
  | .Effect_Italic => 3
  | .Effect_Underline => 4
  | .Effect_Blink => 5
  | .Effect_Reverse => 7
  | .Effect_Conceal => 8

/-- `struct TcPixel` (termcanvas.h / screen.h). -/
structure TcPixel where
  background : Color
  foreground : Color
  symbol : Char
  effect : TcEffect
deriving DecidableEq

/-- `TcTerminalColorMode` (termcanvas.h) / `TerminalMode` (screen.h). -/
inductive TcTerminalColorMode where
  | Color_Base
  | Color_256
  | Color_RGB
deriving DecidableEq

/-- `get_effect_ansi` (termcanvas.h:235): empty for `Effect_None`,
otherwise `ESC [ code m`. -/
def get_effect_ansi (effect : TcEffect) : String :=
  if effect = TcEffect.Effect_None then ""
  else "\x1b[" ++ toString (effectCode effect) ++ "m"

/-- `rgb_to_ansi` (termcanvas.h:247): the TrueColor escape
`ESC [38;2;r;g;b;48;2;r;g;b m`. -/
def rgb_to_ansi (fg_color bg_color : Color) : String :=
  "\x1b[38;2;" ++ toString (get_red fg_color) ++ ";" ++
    toString (get_green fg_color) ++ ";" ++ toString (get_blue fg_color) ++
    ";48;2;" ++ toString (get_red bg_color) ++ ";" ++
    toString (get_green bg_color) ++ ";" ++ toString (get_blue bg_color) ++ "m"

/-- The grayscale test of `rgb_to_256_index` (termcanvas.h:268-280): channel
`c` is within `gray_step = 255.0f/24.0f` of the bucket center `8 + 10*i`.
The float comparison is exact for these operands (see module comment); the
embedding clears the denominator, `|c - center| ≤ 255/24 ↔
24·|c - center| ≤ 255`, an exact equivalence. -/
def grayHit (r g b : Nat) (i : Nat) : Bool :=
  decide (24 * ((r : Int) - (8 + 10 * i)).natAbs ≤ 255) &&
  decide (24 * ((g : Int) - (8 + 10 * i)).natAbs ≤ 255) &&
  decide (24 * ((b : Int) - (8 + 10 * i)).natAbs ≤ 255)

/-- The grayscale loop of `rgb_to_256_index` (termcanvas.h:270-279): the
first `i < 24` whose bucket-center test succeeds yields `232 + i`. -/
def grayIndex (r g b : Nat) : Option Nat :=
  ((List.range 24).find? (fun i => grayHit r g b i)).map (fun i => 232 + i)

/-- `lroundf ((float)c / 255.0f * 5.0f)` (termcanvas.h:283-285).
For `0 ≤ c ≤ 255` the exact value `c/51` is never a tie and float rounding
is far too small to cross `.5`, so the result is `round (c/51)`, i.e.
`⌊(2c+51)/102⌋`. -/
def cubeRound (c : Nat) : Nat := (2 * c + 51) / 102

/-- `rgb_to_256_index` (termcanvas.h:262): grayscale ramp first, otherwise
the 6×6×6 cube with index `16 + 36*r_6 + 6*g_6 + b_6`. -/
def rgb_to_256_index (color : Color) : Nat :=
  let r := get_red color
  let g := get_green color
  let b := get_blue color
  match grayIndex r g b with
  | some gi => gi
  | none => 16 + 36 * cubeRound r + 6 * cubeRound g + cubeRound b

/-- `rgb_to_ansi_256` (termcanvas.h:295). -/
def rgb_to_ansi_256 (fg_color bg_color : Color) : String :=
  "\x1b[38;5;" ++ toString (rgb_to_256_index fg_color) ++
    ";48;5;" ++ toString (rgb_to_256_index bg_color) ++ "m"

/-- The `basic_colors` table of `rgb_to_ansi_base` (termcanvas.h:328). -/
def basic_colors : List (Nat × Nat × Nat) :=
  [(0, 0, 0), (128, 0, 0), (0, 128, 0), (128, 128, 0),
   (0, 0, 128), (128, 0, 128), (0, 128, 128), (192, 192, 192)]

/-- The `bright_colors` table of `rgb_to_ansi_base` (termcanvas.h:340). -/
def bright_colors : List (Nat × Nat × Nat) :=
  [(128, 128, 128), (255, 0, 0), (0, 255, 0), (255, 255, 0),
   (0, 0, 255), (255, 0, 255), (0, 255, 255), (255, 255, 255)]

/-- Squared Euclidean distance used by `rgb_to_ansi_base`; the C code
compares `sqrtf` values, and for these integer inputs `sqrt` is strictly
monotone with gaps far above float precision, so comparing squares embeds
the comparisons exactly. -/
def dist2 (r g b : Nat) (ref : Nat × Nat × Nat) : Int :=
  ((r : Int) - ref.1) ^ 2 + ((g : Int) - ref.2.1) ^ 2 + ((b : Int) - ref.2.2) ^ 2

/-- The argmin loops of `rgb_to_ansi_base` (termcanvas.h:352-387): the 8
standard colors are scanned first, then the 8 bright ones; a strict `<`
update means the first minimal index wins. -/
def closest_index (r g b : Nat) : Nat :=
  let refs := basic_colors ++ bright_colors
  (refs.enum.foldl
    (fun best entry => if dist2 r g b entry.2 < best.2 then (entry.1, dist2 r g b entry.2) else best)
    (0, 10 ^ 9)).1

/-- `rgb_to_ansi_base` (termcanvas.h:309): codes 30-37/90-97 (foreground)
and 40-47/100-107 (background). -/
def rgb_to_ansi_base (fg_color bg_color : Color) : String :=
  let index_fg := closest_index (get_red fg_color) (get_green fg_color) (get_blue fg_color)
  let index_bg := closest_index (get_red bg_color) (get_green bg_color) (get_blue bg_color)
  let fg_code := if index_fg < 8 then 30 + index_fg else 90 + (index_fg - 8)
  let bg_code := if index_bg < 8 then 40 + index_bg else 100 + (index_bg - 8)
  "\x1b[" ++ toString fg_code ++ ";" ++ toString bg_code ++ "m"

/-- `get_color_ansi` (termcanvas.h:403). -/
def get_color_ansi (fg_color bg_color : Color) (mode : TcTerminalColorMode) : String :=
  match mode with
  | .Color_RGB => rgb_to_ansi fg_color bg_color
  | .Color_256 => rgb_to_ansi_256 fg_color bg_color
  | .Color_Base => rgb_to_ansi_base fg_color bg_color

/-! ## screen.h — canvas structure and drawing primitives -/

/-- `struct TermCanvas` of `screen.h` (no terminal-size fields there); the
staging buffer pointer is not part of the functional state, only its size. -/
structure Screen where
  height : Int
  width : Int
  pixels : List (List TcPixel)
  buffer_size : Int
  mode : TcTerminalColorMode
deriving DecidableEq

/-- The `SET_PIXEL` macro (screen.h:131): colors overwrite unless `None`,
the symbol always overwrites, and the effect is not copied. -/
def SET_PIXEL (target : TcPixel) (source : TcPixel) : TcPixel :=
  { target with
    foreground := if is_none source.foreground then target.foreground else source.foreground
    background := if is_none source.background then target.background else source.background
    symbol := source.symbol }

/-- In-memory effect of the C write `canvas->pixels[y][x] = f (pixels[y][x])`.
A write whose index lies outside the grid is undefined behaviour in C; the
model leaves the grid unchanged there and the out-of-bounds access is
accounted separately (`hlineWrites`/`vlineWrites`). -/
def gridSet (g : List (List TcPixel)) (y x : Int) (f : TcPixel → TcPixel) :
    List (List TcPixel) :=
  if 0 ≤ y ∧ 0 ≤ x then
    match g.get? y.toNat with
    | some row =>
      match row.get? x.toNat with
      | some cell => g.set y.toNat (row.set x.toNat (f cell))
      | Option.none => g
    | Option.none => g
  else g

/-- `tc_put_pixel` (screen.h:638). -/
def tc_put_pixel (canvas : Screen) (x y : Int) (symbol : Char)
    (foreground background : Color) (effect : TcEffect) : Screen :=
  if x < 0 ∨ y < 0 then canvas
  else if x ≥ canvas.width ∨ y ≥ canvas.height then canvas
  else
    let pixel : TcPixel := ⟨background, foreground, symbol, effect⟩
    { canvas with pixels := gridSet canvas.pixels y x (fun c => SET_PIXEL c pixel) }

/-- `tc_fill_area` (screen.h:652). -/
def tc_fill_area (canvas : Screen) (x y width height : Int) (symbol : Char)
    (foreground background : Color) (effect : TcEffect) : Screen :=
  if x < 0 ∨ y < 0 ∨ height ≤ 0 ∨ width ≤ 0 then canvas
  else if x + width > canvas.width ∨ y + height > canvas.height then canvas
  else
    let pixel : TcPixel := ⟨background, foreground, symbol, effect⟩
    { canvas with
      pixels :=
        (List.range height.toNat).foldl
          (fun g i =>
            (List.range width.toNat).foldl
              (fun g' j => gridSet g' (y + i) (x + j) (fun c => SET_PIXEL c pixel)) g)
          canvas.pixels }

/-- `tc_draw_borders` (screen.h:516): horizontal edges, vertical edges, then
the four corner symbols. -/
def tc_draw_borders (canvas : Screen) (x y width height : Int)
    (borders : List Char) (foreground background : Color) (effect : TcEffect) : Screen :=
  if y < 0 ∨ x < 0 ∨ height ≤ 0 ∨ width ≤ 0 then canvas
  else if y + height > canvas.height ∨ x + width > canvas.width then canvas
  else
    let horizontal_pixel : TcPixel := ⟨background, foreground, borders.getD 0 ' ', effect⟩
    let vertical_pixel : TcPixel := ⟨background, foreground, borders.getD 1 ' ', effect⟩
    let g1 :=
      (List.range width.toNat).foldl
        (fun g i =>
          gridSet (gridSet g y (x + i) (fun c => SET_PIXEL c horizontal_pixel))
            (y + height - 1) (x + i) (fun c => SET_PIXEL c horizontal_pixel))
        canvas.pixels
    let g2 :=
      (List.range height.toNat).foldl
        (fun g i =>
          gridSet (gridSet g (y + i) x (fun c => SET_PIXEL c vertical_pixel))
            (y + i) (x + width - 1) (fun c => SET_PIXEL c vertical_pixel))
        g1
    let g3 := gridSet g2 y x (fun c => { c with symbol := borders.getD 2 ' ' })
    let g4 := gridSet g3 y (x + width - 1) (fun c => { c with symbol := borders.getD 3 ' ' })
    let g5 := gridSet g4 (y + height - 1) x (fun c => { c with symbol := borders.getD 4 ' ' })
    let g6 := gridSet g5 (y + height - 1) (x + width - 1)
      (fun c => { c with symbol := borders.getD 5 ' ' })
    { canvas with pixels := g6 }

/-- `tc_draw_hline` (screen.h:546): after the guard it writes `width` cells
starting at column `x`, then the endpoint symbols at `x` and `width-1`. -/
def tc_draw_hline (canvas : Screen) (x y : Int) (borders : List Char)
    (foreground background : Color) (effect : TcEffect) : Screen :=
  if y < 0 ∨ x < 0 then canvas
  else if y ≥ canvas.height ∨ x ≥ canvas.width then canvas
  else
    let pixel : TcPixel := ⟨background, foreground, borders.getD 0 ' ', effect⟩
    let g1 :=
      (List.range canvas.width.toNat).foldl
        (fun g i => gridSet g y (x + i) (fun c => SET_PIXEL c pixel)) canvas.pixels
    let g2 := gridSet g1 y x (fun c => { c with symbol := borders.getD 6 ' ' })
    let g3 := gridSet g2 y (canvas.width - 1) (fun c => { c with symbol := borders.getD 7 ' ' })
    { canvas with pixels := g3 }

/-- `tc_draw_vline` (screen.h:564): after the guard it writes `height` cells
starting at row `y`, then the endpoint symbols at `y` and `height-1`. -/
def tc_draw_vline (canvas : Screen) (x y : Int) (borders : List Char)
    (foreground background : Color) (effect : TcEffect) : Screen :=
  if y < 0 ∨ x < 0 then canvas
  else if y ≥ canvas.height ∨ x ≥ canvas.width then canvas
  else
    let pixel : TcPixel := ⟨background, foreground, borders.getD 0 ' ', effect⟩
    let g1 :=
      (List.range canvas.height.toNat).foldl
        (fun g i => gridSet g (y + i) x (fun c => SET_PIXEL c pixel)) canvas.pixels
    let g2 := gridSet g1 y x (fun c => { c with symbol := borders.getD 6 ' ' })
    let g3 := gridSet g2 (canvas.height - 1) x (fun c => { c with symbol := borders.getD 7 ' ' })
    { canvas with pixels := g3 }

/-- The `(x, y)` cell indices `tc_draw_hline` writes once past its guard
(body cells and the two endpoint symbols), in source order. -/
def hlineWrites (canvas : Screen) (x y : Int) : List (Int × Int) :=
  if y < 0 ∨ x < 0 then []
  else if y ≥ canvas.height ∨ x ≥ canvas.width then []
  else ((List.range canvas.width.toNat).map (fun i => (x + (i : Int), y))) ++
    [(x, y), (canvas.width - 1, y)]

/-- The cell indices `tc_draw_vline` writes once past its guard. -/
def vlineWrites (canvas : Screen) (x y : Int) : List (Int × Int) :=
  if y < 0 ∨ x < 0 then []
  else if y ≥ canvas.height ∨ x ≥ canvas.width then []
  else ((List.range canvas.height.toNat).map (fun i => (x, y + (i : Int)))) ++
    [(x, y), (x, canvas.height - 1)]

/-- Does a write list touch a cell outside `[0,width) × [0,height)`? -/
def anyOOB (canvas : Screen) (ws : List (Int × Int)) : Bool :=
  ws.any (fun p =>
    decide (p.1 < 0 ∨ p.1 ≥ canvas.width ∨ p.2 < 0 ∨ p.2 ≥ canvas.height))

/-! ## termcanvas.h — canvas lifecycle and the renderer -/

/-- `struct TermCanvas` of `termcanvas.h`. -/
structure TermCanvas where
  height : Int
  width : Int
  pixels : List (List TcPixel)
  buffer_size : Int
  terminal_w : Int
  terminal_h : Int
  enough_space : Bool
  mode : TcTerminalColorMode
deriving DecidableEq

/-- `tc_create` (termcanvas.h:425).  `malloc` is assumed to succeed (the C
code never checks it); `get_terminal_mode()` reads the environment and is
passed in as `mode`; the three struct fields the C code leaves uninitialized
(`terminal_w`, `terminal_h`, `enough_space`) are passed as explicit
`uninit_*` arguments standing for the indeterminate contents of the
freshly `malloc`ed struct.  No validation of `width`/`height` is performed,
mirroring the source. -/
def tc_create (width height : Int) (symbol : Char)
    (foreground background : Color) (mode : TcTerminalColorMode)
    (uninit_terminal_w uninit_terminal_h : Int) (uninit_enough_space : Bool) :
    TermCanvas :=
  let pixel : TcPixel := ⟨background, foreground, symbol, TcEffect.Effect_None⟩
  { width := width
    height := height
    mode := mode
    pixels := List.replicate height.toNat (List.replicate width.toNat pixel)
    buffer_size := (15 * width * height + 8 + height) / 20
    terminal_w := uninit_terminal_w
    terminal_h := uninit_terminal_h
    enough_space := uninit_enough_space }

/-- One logical piece of renderer output, one constructor per distinct
`swprintf`/character write of `tc_show` (termcanvas.h:535). -/
inductive Tok where
  | home
  | clearLine (y : Nat)
  | style (e : TcEffect) (fg bg : Color)
  | glyph (c : Char)
  | rowEnd
deriving DecidableEq

/-- A renderer event: either the per-cell capacity check
(termcanvas.h:574) or an output token. -/
inductive Item where
  | chk
  | tok (t : Tok)
deriving DecidableEq

/-- The tracked "last emitted" state of `tc_show`
(`last_bg`/`last_fg`/`last_effect`, termcanvas.h:559). -/
structure LastStyle where
  bg : Color
  fg : Color
  eff : TcEffect
deriving DecidableEq

/-- Initial tracked state: both colors are the `COLOR_NONE` sentinel. -/
def initLast : LastStyle := ⟨COLOR_NONE, COLOR_NONE, TcEffect.Effect_None⟩

/-- The tracked style a pixel leaves behind after being emitted. -/
def styleOf (px : TcPixel) : LastStyle := ⟨px.background, px.foreground, px.effect⟩

/-- The inner cell loop of `tc_show` (termcanvas.h:570-599): per cell, the
capacity check, then the combined reset+effect+color escape exactly when
the cell's triple differs from the tracked one (which it then updates),
then the glyph.  Returns the events and the final tracked style. -/
def rowItems (st : LastStyle) : List TcPixel → List Item × LastStyle
  | [] => ([], st)
  | px :: rest =>
    if px.background = st.bg ∧ px.foreground = st.fg ∧ px.effect = st.eff then
      (Item.chk :: Item.tok (Tok.glyph px.symbol) :: (rowItems st rest).1,
       (rowItems st rest).2)
    else
      (Item.chk :: Item.tok (Tok.style px.effect px.foreground px.background) ::
         Item.tok (Tok.glyph px.symbol) :: (rowItems (styleOf px) rest).1,
       (rowItems (styleOf px) rest).2)

/-- The row loop of `tc_show` (termcanvas.h:563-602): each row starts with
a combined escape re-asserting the tracked style (the `swprintf` at
termcanvas.h:564) and ends with the reset+clear-to-eol+newline
terminator. -/
def rowsItems (st : LastStyle) : List (List TcPixel) → List Item
  | [] => []
  | row :: rest =>
    Item.tok (Tok.style st.eff st.fg st.bg) ::
      ((rowItems st row).1 ++ Item.tok Tok.rowEnd :: rowsItems (rowItems st row).2 rest)

/-- The stale-region clear of `tc_show` (termcanvas.h:547-553), run when the
previous frame did not fit: `terminal_h/2 + 2` cursor-position+clear-line
sequences. -/
def clearItems (terminal_h : Int) : List Item :=
  (List.range (terminal_h / 2 + 2).toNat).map (fun y => Item.tok (Tok.clearLine y))

/-- The event stream of the normal (fitting) path of `tc_show`
(termcanvas.h:545-602), with the fresh terminal size `tw × th` already
sampled.  The too-small branch (termcanvas.h:539-543) produces the
`tc_show_too_small` diagnostic instead and is not part of this stream;
all theorems below that use this definition assume the frame fits. -/
def tc_show_items (c : TermCanvas) (_tw th : Int) : List Item :=
  (if c.enough_space then [] else clearItems th) ++
    Item.tok Tok.home ::
      rowsItems initLast (c.pixels.take (min c.height th).toNat)

/-- Keep only the output tokens of an event stream. -/
def itemToks (its : List Item) : List Tok :=
  its.filterMap (fun i => match i with | .chk => Option.none | .tok t => some t)

/-- The token stream of a fitting `tc_show` call. -/
def tc_show_toks (c : TermCanvas) (tw th : Int) : List Tok :=
  itemToks (tc_show_items c tw th)

/-- `MAX_ANSI_LENGTH` (termcanvas.h:88). -/
def MAX_ANSI_LENGTH : Int := 50

/-- The characters each token puts into the staging buffer. -/
def tokStr (mode : TcTerminalColorMode) : Tok → String
  | .home => "\x1b[0;0H"
  | .clearLine y => "\x1b[" ++ toString y ++ ";0H\x1b[K"
  | .style e fg bg => "\x1b[0m" ++ get_effect_ansi e ++ get_color_ansi fg bg mode
  | .glyph ch => String.singleton ch
  | .rowEnd => "\x1b[0m\x1b[K\n"

/-- Whether a token's write null-terminates (every `swprintf` does; the
bare glyph store at termcanvas.h:598 does not). -/
def hasNullWrite : Tok → Bool
  | .glyph _ => false
  | _ => true

/-- Staging-buffer simulation of `tc_show`: threads the write position
`buf_idx` through the event stream, applying the flush-and-reset capacity
check (termcanvas.h:574-578) at each `chk`, and records the largest buffer
index touched by any write (including the terminating null of each
`swprintf`). -/
def simMax (mode : TcTerminalColorMode) (bufsize : Int) :
    List Item → Int → Int → Int
  | [], _, mx => mx
  | Item.chk :: rest, idx, mx =>
    simMax mode bufsize rest (if idx > bufsize - MAX_ANSI_LENGTH then 0 else idx) mx
  | Item.tok t :: rest, idx, mx =>
    let L : Int := (tokStr mode t).length
    let touched : Int := if hasNullWrite t then idx + L else idx
    simMax mode bufsize rest (idx + L) (max mx touched)

/-- Largest staging-buffer index touched during a fitting `tc_show` call. -/
def tc_show_max_touch (c : TermCanvas) (tw th : Int) : Int :=
  simMax c.mode c.buffer_size (tc_show_items c tw th) 0 0

/-- The character stream a fitting `tc_show` call sends to the terminal:
the buffer contents (the final newline is overwritten by the null
terminator, `buffer[--buf_idx] = L'\0'`, termcanvas.h:603) followed by the
trailing full reset of the final `wprintf` (termcanvas.h:604). -/
def tc_show_output (c : TermCanvas) (tw th : Int) : String :=
  (String.join ((tc_show_toks c tw th).map (tokStr c.mode))).dropRight 1 ++ "\x1b[0m"

/-- The field updates a `tc_show` call performs on the canvas
(termcanvas.h:538-552): the fresh terminal size is recorded; the fit flag
becomes `false` on the too-small branch and `true` on the normal branch.
No other field is assigned anywhere in `tc_show`. -/
def tc_show_update (c : TermCanvas) (tw th : Int) : TermCanvas :=
  if c.width > tw ∨ c.height > th then
    { c with terminal_w := tw, terminal_h := th, enough_space := false }
  else
    { c with terminal_w := tw, terminal_h := th, enough_space := true }

/-! ## Analysis of the token stream: what stands between consecutive glyphs -/

/-- Is a token one of the combined reset+effect+color escapes? -/
def isStyleTok : Tok → Bool
  | .style _ _ _ => true
  | _ => false

/-- Is a token a glyph? -/
def isGlyph : Tok → Bool
  | .glyph _ => true
  | _ => false

/-- Helper for `gaps`: `acc` holds (reversed) the tokens seen since the
last glyph; each further glyph closes a gap. Tokens after the final glyph
belong to no gap. -/
def gapsFrom (acc : List Tok) : List Tok → List (List Tok)
  | [] => []
  | t :: rest =>
    if isGlyph t then acc.reverse :: gapsFrom [] rest
    else gapsFrom (t :: acc) rest

/-- The list of token segments lying strictly between consecutive glyphs
of a token stream (gap `k` separates glyph `k` from glyph `k+1`). -/
def gaps : List Tok → List (List Tok)
  | [] => []
  | t :: rest => if isGlyph t then gapsFrom [] rest else gaps rest

/-- Do two pixels agree on the (background, foreground, effect) triple the
renderer compares? -/
def sameStyle (p q : TcPixel) : Bool :=
  decide (q.background = p.background ∧ q.foreground = p.foreground ∧ q.effect = p.effect)

/-- Expected gap between the glyphs of two cells adjacent in one row:
empty when the triples agree, otherwise exactly the second cell's combined
escape. -/
def gapAfter (p q : TcPixel) : List Tok :=
  if q.background = p.background ∧ q.foreground = p.foreground ∧ q.effect = p.effect then []
  else [Tok.style q.effect q.foreground q.background]

/-- Expected gaps of the rest of a frame, having just emitted the glyph of
cell `p`: within a row `gapAfter`; at each row boundary the row terminator
plus the row-prefix escape re-asserting the tracked style, then the next
cell's own escape when its triple differs. -/
def expRow (p : TcPixel) : List TcPixel → List (List TcPixel) → List (List Tok)
  | q :: cs, rows => gapAfter p q :: expRow q cs rows
  | [], (q :: cs) :: rows =>
    (Tok.rowEnd :: Tok.style p.effect p.foreground p.background :: gapAfter p q) ::
      expRow q cs rows
  | [], [] :: rows => expRow p [] rows
  | [], [] => []
termination_by cs rows => (rows.length, cs.length)

/-- Expected gaps of a whole frame (empty rows cannot occur for a canvas
with positive width). -/
def expGaps : List (List TcPixel) → List (List Tok)
  | [] => []
  | [] :: rows => expGaps rows
  | (p :: cs) :: rows => expRow p cs rows

/-- A default pixel, used only as the `getD` fallback below. -/
def dummyPx : TcPixel := ⟨COLOR_BLACK, COLOR_WHITE, ' ', TcEffect.Effect_None⟩

/-- The flattened row-major list of cells a fitting `tc_show` call walks. -/
def flatCells (c : TermCanvas) (th : Int) : List TcPixel :=
  (c.pixels.take (min c.height th).toNat).flatten

/-- Claim C1 as stated, as an executable check: for every pair of cells
adjacent in the render order whose foreground, background and effect all
agree, the token gap between their glyphs contains no style-setting escape
sequence. -/
def claimC1holds (c : TermCanvas) (tw th : Int) : Bool :=
  let cells := flatCells c th
  let gs := gaps (tc_show_toks c tw th)
  (List.range (cells.length - 1)).all (fun k =>
    if sameStyle (cells.getD k dummyPx) (cells.getD (k + 1) dummyPx) then
      (gs.getD k []).all (fun t => !isStyleTok t)
    else true)

/-! ## Concrete scenario inputs used by the claim theorems -/

/-- A 1×2 frame (one column, two rows) whose two cells carry the same
style: the smallest frame with a cross-row adjacent pair. -/
def twoRowCanvas : TermCanvas :=
  tc_create 1 2 '+' COLOR_WHITE COLOR_BLACK TcTerminalColorMode.Color_RGB 0 0 true

/-- The §8 end-to-end scenario frame: width 5, height 1, fill `'.'` white
on black, cell (2,0) set to `'#'` red on black, TrueColor mode, with the
fit flag set (the claim describes a plain normal render). -/
def scenarioCanvas : TermCanvas :=
  { tc_create 5 1 '.' COLOR_WHITE COLOR_BLACK TcTerminalColorMode.Color_RGB 0 0 true with
    pixels :=
      [[⟨COLOR_BLACK, COLOR_WHITE, '.', TcEffect.Effect_None⟩,
        ⟨COLOR_BLACK, COLOR_WHITE, '.', TcEffect.Effect_None⟩,
        ⟨COLOR_BLACK, COLOR_RED, '#', TcEffect.Effect_None⟩,
        ⟨COLOR_BLACK, COLOR_WHITE, '.', TcEffect.Effect_None⟩,
        ⟨COLOR_BLACK, COLOR_WHITE, '.', TcEffect.Effect_None⟩]] }

/-- A minimal 1×1 TrueColor frame, used to exhibit the staging-buffer
overflow. -/
def tinyCanvas : TermCanvas :=
  tc_create 1 1 '+' COLOR_WHITE COLOR_BLACK TcTerminalColorMode.Color_RGB 0 0 true

/-- A freshly created frame whose indeterminate `enough_space` memory
happens to be `false`. -/
def uninitCanvas : TermCanvas :=
  tc_create 5 1 '.' COLOR_WHITE COLOR_BLACK TcTerminalColorMode.Color_RGB 0 0 false

/-- A 2×2 screen for the drawing-primitive claims. -/
def smallScreen : Screen :=
  { height := 2, width := 2
    pixels := List.replicate 2 (List.replicate 2 dummyPx)
    buffer_size := 3
    mode := TcTerminalColorMode.Color_RGB }

/-- An 8-entry border-character set (body, body, four corners, two
endpoints). -/
def bordersEx : List Char := ['-', '|', 'a', 'b', 'c', 'd', 'L', 'R']

/-- The tokens of one row's cell loop. -/
def rowToksT (st : LastStyle) (cs : List TcPixel) : List Tok :=
  itemToks (rowItems st cs).1

/-- The tokens of the row loop from tracked style `st` on. -/
def rowsToksT (st : LastStyle) (rows : List (List TcPixel)) : List Tok :=
  itemToks (rowsItems st rows)

/-- The spec's cube rounding, following §4.1 verbatim:
`round(channel/255 × 5)`. -/
def specRound5 (c : Nat) : ℤ := round ((c : ℚ) * 5 / 255)

/-- The spec's notion (§4.5/§7) of a draw call's target region being fully
contained in the grid `[0,W) × [0,H)`. -/
def regionContained (x y width height W H : Int) : Prop :=
  ∀ i j : Int, x ≤ i → i < x + width → y ≤ j → j < y + height →
    0 ≤ i ∧ i < W ∧ 0 ≤ j ∧ j < H

end TermCanvasModel

/-! # Theorems -/

namespace TermCanvasModel

set_option maxRecDepth 100000

theorem cubeRound_spec (c : Nat) : (cubeRound c : ℤ) = specRound5 c := by
  unfold cubeRound specRound5
  rw [round_eq]
  have h : (c : ℚ) * 5 / 255 + 1 / 2 = ((2 * c + 51 : ℕ) : ℚ) / ((102 : ℕ) : ℚ) := by
    push_cast
    ring
  rw [h, Rat.floor_natCast_div_natCast]
  omega

theorem itemToks_append (a b : List Item) :
    itemToks (a ++ b) = itemToks a ++ itemToks b :=
  List.filterMap_append a b _

theorem rowToksT_nil (st : LastStyle) : rowToksT st [] = [] := rfl

theorem styleOf_eq_of_cond {px : TcPixel} {st : LastStyle}
    (h : px.background = st.bg ∧ px.foreground = st.fg ∧ px.effect = st.eff) :
    styleOf px = st := by
  obtain ⟨h1, h2, h3⟩ := h
  cases st
  simp_all [styleOf]

theorem rowToksT_cons (st : LastStyle) (px : TcPixel) (cs : List TcPixel) :
    rowToksT st (px :: cs) =
      (if px.background = st.bg ∧ px.foreground = st.fg ∧ px.effect = st.eff then
        [Tok.glyph px.symbol]
      else [Tok.style px.effect px.foreground px.background, Tok.glyph px.symbol]) ++
      rowToksT (styleOf px) cs := by
  by_cases h : px.background = st.bg ∧ px.foreground = st.fg ∧ px.effect = st.eff
  · rw [if_pos h]
    have hst := styleOf_eq_of_cond h
    simp [rowToksT, rowItems, h, itemToks, hst]
  · rw [if_neg h]
    simp [rowToksT, rowItems, h, itemToks]

theorem rowItems_snd (cs : List TcPixel) : ∀ p : TcPixel,
    (rowItems (styleOf p) cs).2 = styleOf (cs.getLastD p) := by
  induction cs with
  | nil => intro p; rfl
  | cons q cs' ih =>
    intro p
    by_cases h : q.background = (styleOf p).bg ∧ q.foreground = (styleOf p).fg ∧
        q.effect = (styleOf p).eff
    · have hq : styleOf q = styleOf p := styleOf_eq_of_cond h
      simp only [rowItems, if_pos h, List.getLastD_cons]
      rw [← hq]
      exact ih q
    · simp only [rowItems, if_neg h, List.getLastD_cons]
      exact ih q

theorem rowItems_cons_snd (st : LastStyle) (px : TcPixel) (cs : List TcPixel) :
    (rowItems st (px :: cs)).2 = styleOf (cs.getLastD px) := by
  by_cases h : px.background = st.bg ∧ px.foreground = st.fg ∧ px.effect = st.eff
  · have hst := styleOf_eq_of_cond h
    simp only [rowItems, if_pos h]
    rw [← hst]
    exact rowItems_snd cs px
  · simp only [rowItems, if_neg h]
    exact rowItems_snd cs px

theorem rowsToksT_nil (st : LastStyle) : rowsToksT st [] = [] := rfl

theorem rowsToksT_cons (st : LastStyle) (row : List TcPixel)
    (rows : List (List TcPixel)) :
    rowsToksT st (row :: rows) =
      Tok.style st.eff st.fg st.bg ::
        (rowToksT st row ++ Tok.rowEnd :: rowsToksT (rowItems st row).2 rows) := by
  simp [rowsToksT, rowsItems, itemToks, rowToksT]

theorem gapsFrom_glyph (acc : List Tok) (ch : Char) (ts : List Tok) :
    gapsFrom acc (Tok.glyph ch :: ts) = acc.reverse :: gapsFrom [] ts := by
  simp [gapsFrom, isGlyph]

theorem gapsFrom_nonglyph {t : Tok} (h : isGlyph t = false) (acc : List Tok)
    (ts : List Tok) : gapsFrom acc (t :: ts) = gapsFrom (t :: acc) ts := by
  simp [gapsFrom, h]

theorem gaps_nonglyph {t : Tok} (h : isGlyph t = false) (ts : List Tok) :
    gaps (t :: ts) = gaps ts := by
  simp [gaps, h]

theorem gaps_glyph (ch : Char) (ts : List Tok) :
    gaps (Tok.glyph ch :: ts) = gapsFrom [] ts := by
  simp [gaps, isGlyph]

theorem gaps_append_nonglyph (pre : List Tok) (h : ∀ t ∈ pre, isGlyph t = false)
    (ts : List Tok) : gaps (pre ++ ts) = gaps ts := by
  induction pre with
  | nil => rfl
  | cons t pre' ih =>
    rw [List.cons_append, gaps_nonglyph (h t (by simp))]
    exact ih (fun t' ht' => h t' (by simp [ht']))

theorem gapsFrom_rows : ∀ (rows : List (List TcPixel)), (∀ r ∈ rows, r ≠ []) →
    ∀ (cs : List TcPixel) (p : TcPixel),
    gapsFrom [] (rowToksT (styleOf p) cs ++
        Tok.rowEnd :: rowsToksT (styleOf (cs.getLastD p)) rows) =
      expRow p cs rows := by
  intro rows
  induction rows with
  | nil =>
    intro _ cs
    induction cs with
    | nil =>
      intro p
      simp [rowToksT_nil, rowsToksT_nil, gapsFrom, isGlyph, expRow]
    | cons q cs' ih =>
      intro p
      rw [rowToksT_cons]
      by_cases h : q.background = (styleOf p).bg ∧ q.foreground = (styleOf p).fg ∧
          q.effect = (styleOf p).eff
      · rw [if_pos h]
        simp only [List.singleton_append, List.cons_append, List.getLastD_cons]
        rw [gapsFrom_glyph]
        simp only [List.nil_append]
        rw [ih q]
        have hga : gapAfter p q = [] := by
          simp only [gapAfter, styleOf] at h ⊢
          rw [if_pos h]
        simp [expRow, hga]
      · rw [if_neg h]
        simp only [List.cons_append, List.getLastD_cons]
        rw [gapsFrom_nonglyph (by simp [isGlyph]), gapsFrom_glyph]
        simp only [List.nil_append]
        rw [ih q]
        have hga : gapAfter p q = [Tok.style q.effect q.foreground q.background] := by
          simp only [gapAfter, styleOf] at h ⊢
          rw [if_neg h]
        simp [expRow, hga]
  | cons row rows' ihrows =>
    intro hne cs
    induction cs with
    | nil =>
      intro p
      obtain ⟨q, cs'', hrow⟩ : ∃ q cs'', row = q :: cs'' := by
        cases hr : row with
        | nil => exact absurd (hr ▸ hne row (by simp)) (by simp)
        | cons a b => exact ⟨a, b, rfl⟩
      subst hrow
      rw [rowToksT_nil, List.nil_append, List.getLastD]
      rw [rowsToksT_cons, rowItems_cons_snd]
      rw [rowToksT_cons]
      rw [gapsFrom_nonglyph (by simp [isGlyph]), gapsFrom_nonglyph (by simp [isGlyph])]
      by_cases h : q.background = (styleOf p).bg ∧ q.foreground = (styleOf p).fg ∧
          q.effect = (styleOf p).eff
      · rw [if_pos h]
        simp only [List.singleton_append, List.cons_append]
        rw [gapsFrom_glyph]
        simp only [List.nil_append]
        rw [ihrows (fun r hr => hne r (by simp [hr])) cs'' q]
        have hga : gapAfter p q = [] := by
          simp only [gapAfter, styleOf] at h ⊢
          rw [if_pos h]
        simp [expRow, hga, styleOf]
      · rw [if_neg h]
        simp only [List.cons_append]
        rw [gapsFrom_nonglyph (by simp [isGlyph]), gapsFrom_glyph]
        simp only [List.nil_append]
        rw [ihrows (fun r hr => hne r (by simp [hr])) cs'' q]
        have hga : gapAfter p q = [Tok.style q.effect q.foreground q.background] := by
          simp only [gapAfter, styleOf] at h ⊢
          rw [if_neg h]
        simp [expRow, hga, styleOf]
    | cons q cs' ih =>
      intro p
      rw [rowToksT_cons]
      by_cases h : q.background = (styleOf p).bg ∧ q.foreground = (styleOf p).fg ∧
          q.effect = (styleOf p).eff
      · rw [if_pos h]
        simp only [List.singleton_append, List.cons_append, List.getLastD_cons]
        rw [gapsFrom_glyph]
        simp only [List.nil_append]
        rw [ih q]
        have hga : gapAfter p q = [] := by
          simp only [gapAfter, styleOf] at h ⊢
          rw [if_pos h]
        simp [expRow, hga]
      · rw [if_neg h]
        simp only [List.cons_append, List.getLastD_cons]
        rw [gapsFrom_nonglyph (by simp [isGlyph]), gapsFrom_glyph]
        simp only [List.nil_append]
        rw [ih q]
        have hga : gapAfter p q = [Tok.style q.effect q.foreground q.background] := by
          simp only [gapAfter, styleOf] at h ⊢
          rw [if_neg h]
        simp [expRow, hga]

/-! ## Claim theorems -/

/-- C1 (counterexample): the claim as stated is false.  On the 1×2 frame
whose two cells carry identical foreground, background and effect, the
tokens emitted between their two glyphs contain a style-setting escape:
`tc_show` starts every row with a combined reset+effect+color escape
(termcanvas.h:564) re-asserting the tracked style, even when the next
cell's triple equals the last emitted one. -/
theorem C1_claim_counterexample : claimC1holds twoRowCanvas 80 24 = false := by decide

/-- C1 (amended): the gap between consecutive glyphs of a fitting render
is exactly: within a row, the second cell's combined reset+effect+color
escape when its (background, foreground, effect) triple differs from the
previous cell's and nothing at all when the triples agree; across a row
boundary, always the row terminator followed by the row-prefix escape
re-asserting the tracked style, and then additionally the next cell's own
escape exactly when its triple differs.  (`expRow`/`gapAfter` encode this
case analysis.) -/
theorem C1_coalescing_amended (c : TermCanvas) (tw th : Int)
    (hrows : ∀ r ∈ c.pixels, r ≠ []) :
    gaps (tc_show_toks c tw th) = expGaps (c.pixels.take (min c.height th).toNat) := by
  have hne : ∀ r ∈ c.pixels.take (min c.height th).toNat, r ≠ [] :=
    fun r hmem => hrows r (List.take_subset _ _ hmem)
  unfold tc_show_toks tc_show_items
  rw [itemToks_append]
  rw [gaps_append_nonglyph _ (by
    by_cases hs : c.enough_space <;> simp [hs, itemToks, clearItems, isGlyph])]
  have hhd : itemToks (Item.tok Tok.home :: rowsItems initLast
      (c.pixels.take (min c.height th).toNat)) =
      Tok.home :: rowsToksT initLast (c.pixels.take (min c.height th).toNat) := by
    simp [itemToks, rowsToksT]
  rw [hhd, gaps_nonglyph (by simp [isGlyph])]
  cases hrowseq : c.pixels.take (min c.height th).toNat with
  | nil => simp [rowsToksT_nil, gaps, expGaps]
  | cons row rest =>
    obtain ⟨p, cs, rfl⟩ : ∃ p cs, row = p :: cs := by
      cases hr : row with
      | nil => exact absurd (hne row (by rw [hrowseq]; simp)) (by simp [hr])
      | cons a b => exact ⟨a, b, rfl⟩
    rw [rowsToksT_cons, rowItems_cons_snd, rowToksT_cons]
    rw [gaps_nonglyph (by simp [isGlyph])]
    have hne' : ∀ r ∈ rest, r ≠ [] := fun r hr => hne r (by rw [hrowseq]; simp [hr])
    by_cases h : p.background = initLast.bg ∧ p.foreground = initLast.fg ∧
        p.effect = initLast.eff
    · rw [if_pos h]
      simp only [List.singleton_append, List.cons_append, List.nil_append]
      rw [gaps_glyph]
      rw [gapsFrom_rows rest hne' cs p]
      simp [expGaps]
    · rw [if_neg h]
      simp only [List.cons_append, List.nil_append]
      rw [gaps_nonglyph (by simp [isGlyph]), gaps_glyph]
      rw [gapsFrom_rows rest hne' cs p]
      simp [expGaps]

/-- C1 (witness): the amended theorem applied to the concrete 1×2 frame
rendered under an 80×24 terminal. -/
theorem C1_coalescing_amended_witness :
    gaps (tc_show_toks twoRowCanvas 80 24) =
      expGaps (twoRowCanvas.pixels.take (min twoRowCanvas.height 24).toNat) :=
  C1_coalescing_amended twoRowCanvas 80 24 (by decide)

/-- C2 (code bug): the staging buffer does overflow.  For the 1×1
TrueColor frame, `tc_create` sizes the buffer at
`(15·1·1 + 8 + 1)/20 = 1` wide character, yet the very first write of
`tc_show` — the cursor-home escape, emitted with no capacity check —
touches buffer indices 0..6.  The claimed invariant "every write stays
within the allocated `buffer_size`" fails. -/
theorem C2_buffer_overflow_bug :
    tinyCanvas.buffer_size = 1 ∧
    tinyCanvas.buffer_size ≤ tc_show_max_touch tinyCanvas 80 24 := by decide

/-- C3 (counterexample): in the §8 scenario render, four combined
reset+effect+color escapes are emitted, not the three the claim allows
(`tc_show` emits a row-prefix escape, derived from the `COLOR_NONE`
sentinel state, before the first cell's own escape), and the output
contains no newline at all: `tc_show` overwrites the final newline with
the null terminator (termcanvas.h:603), so the claimed terminating
newline is absent. -/
theorem C3_scenario_counterexample :
    (tc_show_toks scenarioCanvas 80 24).countP isStyleTok = 4 ∧
    (tc_show_output scenarioCanvas 80 24).toList.all (fun ch => ch != '\n') = true := by
  decide

/-- C3 (amended): the exact output of the scenario render is the
cursor-home escape, the row-prefix escape built from the sentinel
"last emitted" state, the white-on-black escape, `..`, the red-on-black
escape, `#`, the white-on-black escape, `..`, the reset+clear-to-eol
terminator with its newline stripped, and the trailing full reset. -/
theorem C3_scenario_amended :
    tc_show_output scenarioCanvas 80 24 =
      "\x1b[0;0H" ++
      ("\x1b[0m" ++ get_effect_ansi TcEffect.Effect_None ++
        rgb_to_ansi COLOR_NONE COLOR_NONE) ++
      ("\x1b[0m" ++ get_effect_ansi TcEffect.Effect_None ++
        rgb_to_ansi COLOR_WHITE COLOR_BLACK) ++ ".." ++
      ("\x1b[0m" ++ get_effect_ansi TcEffect.Effect_None ++
        rgb_to_ansi COLOR_RED COLOR_BLACK) ++ "#" ++
      ("\x1b[0m" ++ get_effect_ansi TcEffect.Effect_None ++
        rgb_to_ansi COLOR_WHITE COLOR_BLACK) ++ ".." ++
      "\x1b[0m\x1b[K" ++ "\x1b[0m" := by decide

/-- C4 (code bug): quantizing the grayscale bucket center `8 + 10·1 = 18`
returns 232, not the claimed `232 + 1 = 233`: the code's tolerance is the
full bucket width `255/24` rather than the claimed half-width, so bucket 0
(center 8, distance 10 ≤ 255/24) already matches and the loop breaks
there.  For the same reason pure black is mapped to gray bucket 232
although it lies outside every bucket's half-width. -/
theorem C4_gray_center_bug :
    rgb_to_256_index (Color.rgb 18 18 18) = 232 ∧
    rgb_to_256_index (Color.rgb 0 0 0) = 232 := by decide

/-- C5 (code bug): on a 2×2 canvas, `tc_draw_hline` at the in-bounds start
(1,0) passes its guard (`x < width`) but then writes `width` cells
starting at column `x`, so it touches the out-of-bounds cell (2,0) and
also mutates in-bounds cells — neither a no-op nor bounds-safe;
`tc_draw_vline` at (0,1) misbehaves the same way vertically. -/
theorem C5_line_oob_bug :
    anyOOB smallScreen (hlineWrites smallScreen 1 0) = true ∧
    (tc_draw_hline smallScreen 1 0 bordersEx COLOR_WHITE COLOR_BLACK
        TcEffect.Effect_None).pixels ≠ smallScreen.pixels ∧
    anyOOB smallScreen (vlineWrites smallScreen 0 1) = true ∧
    (tc_draw_vline smallScreen 0 1 bordersEx COLOR_WHITE COLOR_BLACK
        TcEffect.Effect_None).pixels ≠ smallScreen.pixels := by decide

/-- C6 (code bug): `tc_create` performs no validation at all: called with
width −3 it "succeeds", returning a canvas whose `width` field is −3 and
whose rows are empty, instead of failing or aborting as claimed.  (And on
allocation failure the C code dereferences the null result rather than
surfacing the failure.) -/
theorem C6_create_no_validation_bug :
    (tc_create (-3) 2 '+' COLOR_WHITE COLOR_BLACK
        TcTerminalColorMode.Color_RGB 0 0 true).width = -3 ∧
    (tc_create (-3) 2 '+' COLOR_WHITE COLOR_BLACK
        TcTerminalColorMode.Color_RGB 0 0 true).pixels = [[], []] := by decide

/-- C7 (code bug): `tc_create` never assigns `enough_space`, so the flag
after creation is whatever the indeterminate `malloc`ed memory held (the
model's explicit `uninit_enough_space` argument): when that value is
`false`, the first fitting render performs the 14-line stale-region
clear pass (`24/2 + 2` clear sequences) that the claim says cannot
happen; when it is `true`, it does not.  The claimed initialization to
Fitting does not exist in the code. -/
theorem C7_uninit_fit_flag_bug :
    uninitCanvas.enough_space = false ∧
    (tc_show_toks uninitCanvas 80 24).take 14 =
      (List.range 14).map (fun y => Tok.clearLine y) ∧
    (tc_create 5 1 '.' COLOR_WHITE COLOR_BLACK
        TcTerminalColorMode.Color_RGB 0 0 true).enough_space = true := by decide

/-- C8: `tc_fill_area` and `tc_draw_borders` leave the pixel grid
unchanged whenever their target region is not fully contained in
`[0,width) × [0,height)`, and `tc_put_pixel` leaves it unchanged whenever
its cell is out of bounds. -/
theorem C8_bounds_safety (s : Screen) (x y width height : Int) (symbol : Char)
    (fg bg : Color) (eff : TcEffect) (borders : List Char) :
    (¬ regionContained x y width height s.width s.height →
      (tc_fill_area s x y width height symbol fg bg eff).pixels = s.pixels ∧
      (tc_draw_borders s x y width height borders fg bg eff).pixels = s.pixels) ∧
    (¬ (0 ≤ x ∧ x < s.width ∧ 0 ≤ y ∧ y < s.height) →
      (tc_put_pixel s x y symbol fg bg eff).pixels = s.pixels) := by
  constructor
  · intro hnc
    have hguards : (x < 0 ∨ y < 0 ∨ height ≤ 0 ∨ width ≤ 0) ∨
        (x + width > s.width ∨ y + height > s.height) := by
      by_contra hng
      push_neg at hng
      obtain ⟨h1, h2⟩ := hng
      exact hnc (fun i j hi1 hi2 hj1 hj2 => by omega)
    constructor
    · unfold tc_fill_area
      split
      · rfl
      · split
        · rfl
        · exfalso; omega
    · unfold tc_draw_borders
      split
      · rfl
      · split
        · rfl
        · exfalso; omega
  · intro hnb
    unfold tc_put_pixel
    split
    · rfl
    · split
      · rfl
      · exfalso; omega

/-- C8 (witness): the bounds-safety theorem at the 2×2 screen with the
out-of-bounds call site (5,0) and a 1×1 extent. -/
theorem C8_bounds_safety_witness :
    ((tc_fill_area smallScreen 5 0 1 1 'x' COLOR_WHITE COLOR_BLACK
        TcEffect.Effect_None).pixels = smallScreen.pixels ∧
     (tc_draw_borders smallScreen 5 0 1 1 bordersEx COLOR_WHITE COLOR_BLACK
        TcEffect.Effect_None).pixels = smallScreen.pixels) ∧
    (tc_put_pixel smallScreen 5 0 'x' COLOR_WHITE COLOR_BLACK
        TcEffect.Effect_None).pixels = smallScreen.pixels :=
  ⟨(C8_bounds_safety smallScreen 5 0 1 1 'x' COLOR_WHITE COLOR_BLACK
      TcEffect.Effect_None bordersEx).1
      (fun hc => absurd (hc 5 0 (by decide) (by decide) (by decide) (by decide))
        (by decide)),
   (C8_bounds_safety smallScreen 5 0 1 1 'x' COLOR_WHITE COLOR_BLACK
      TcEffect.Effect_None bordersEx).2 (by decide)⟩

/-- C9 (counterexample): the claim as stated is false at the non-gray
color (0, 0, 255): the code returns 21, but the claimed formula
`16 + 36·r + 6·g + 6·b` with the spec's per-channel rounding gives 46. -/
theorem C9_cube_claim_counterexample :
    grayIndex 0 0 255 = Option.none ∧
    (rgb_to_256_index (Color.rgb 0 0 255) : ℤ) ≠
      16 + 36 * specRound5 0 + 6 * specRound5 0 + 6 * specRound5 255 := by
  refine ⟨by decide, ?_⟩
  simp only [← cubeRound_spec]
  decide

/-- C9 (amended): for every color not mapped to a gray bucket, the
quantizer rounds each channel independently to `round(channel/255 × 5)`
and returns index `16 + 36·r + 6·g + b` — the blue coefficient is 1, not
the claimed 6 (as in the standard 256-color cube). -/
theorem C9_cube_amended (r g b : Nat)
    (hgray : grayIndex r g b = Option.none) :
    (rgb_to_256_index (Color.rgb r g b) : ℤ) =
      16 + 36 * specRound5 r + 6 * specRound5 g + specRound5 b := by
  simp only [← cubeRound_spec]
  simp only [rgb_to_256_index, get_red, get_green, get_blue, hgray]
  push_cast
  ring

/-- C9 (witness): the amended cube formula at the non-gray color
(0, 0, 255), whose index is 21. -/
theorem C9_cube_amended_witness :
    (rgb_to_256_index (Color.rgb 0 0 255) : ℤ) =
      16 + 36 * specRound5 0 + 6 * specRound5 0 + specRound5 255 :=
  C9_cube_amended 0 0 255 (by decide)

/-- C10: a fitting `tc_show` call leaves the pixel grid and the frame's
width, height, color mode and buffer size untouched; the canvas update it
performs (`tc_show_update`) changes only the cached terminal size and the
fit flag. -/
theorem C10_show_preserves_frame (c : TermCanvas) (tw th : Int)
    (hfit : c.width ≤ tw ∧ c.height ≤ th) :
    (tc_show_update c tw th).pixels = c.pixels ∧
    (tc_show_update c tw th).width = c.width ∧
    (tc_show_update c tw th).height = c.height ∧
    (tc_show_update c tw th).mode = c.mode ∧
    (tc_show_update c tw th).buffer_size = c.buffer_size := by
  unfold tc_show_update
  split <;> simp_all

/-- C10 (witness): frame preservation at the concrete scenario frame
rendered under an 80×24 terminal. -/
theorem C10_show_preserves_frame_witness :
    (tc_show_update scenarioCanvas 80 24).pixels = scenarioCanvas.pixels ∧
    (tc_show_update scenarioCanvas 80 24).width = scenarioCanvas.width ∧
    (tc_show_update scenarioCanvas 80 24).height = scenarioCanvas.height ∧
    (tc_show_update scenarioCanvas 80 24).mode = scenarioCanvas.mode ∧
    (tc_show_update scenarioCanvas 80 24).buffer_size = scenarioCanvas.buffer_size :=
  C10_show_preserves_frame scenarioCanvas 80 24 (by decide)

end TermCanvasModel
